import Mathlib

/-!
Shallow embedding of the NetInsight bad-interval detection engine
(`scripts/quality_score.py` and `scripts/detect_bad_intervals.py`).

Modelling conventions:
* timestamps are integers (seconds); pandas time arithmetic on Timestamps is
  exact, so `ℤ` seconds is faithful;
* float arithmetic is modelled by exact rationals `ℚ`; `round(x, 2)` is
  modelled by rounding to the nearest multiple of `1/100` (`round2`);
* `math.exp` is transcendental, hence not representable in `ℚ`; every
  definition that uses it takes the exponential as an explicit function
  parameter `E : ℚ → ℚ`, and the theorems below hold for every `E`;
* a pandas column that may be absent or NaN for a row is an `Option` field
  (`none` = absent/NaN); column presence switches (`has_loss_col`, ...) are
  explicit `Bool` parameters, as in the source;
* string-valued cells are `String`s; the formatted attribution strings are
  kept as `List Char` (the `String` payload) to keep substring reasoning
  elementary.
-/

namespace NetInsight

/-- Rounding a rational to two decimal places; models `round(x, 2)` /
`Series.round(2)` from the source (ties, which floats hit only by accident
of binary representation, are rounded half-up here; no theorem or example
below depends on a tie). -/
def round2 (x : ℚ) : ℚ := ((round (100 * x) : ℤ) : ℚ) / 100

/-- Mean of a list of rationals, `0` for the empty list (division by zero
yields `0` in `ℚ`, matching the guarded uses in the source). -/
def qmean (l : List ℚ) : ℚ := l.sum / (l.length : ℚ)

/-! ## Sample Scorer (`scripts/quality_score.py`) -/

/-- `clamp` from `quality_score.py` (default bounds 0, 100):
`max(lo, min(hi, x))`. -/
def clamp (x : ℚ) : ℚ := max 0 (min 100 x)

/-- One raw log row as seen by the per-row scorers. `success` is the 0/1
integer produced by `coerce_success`; optional measurement fields are
`Option` (`none` = column absent for this row or NaN). -/
structure LogRow where
  success : ℤ
  latency_ms : Option ℚ
  jitter_ms : Option ℚ
  packet_loss_pct : Option ℚ
  dns_ms : Option ℚ
  http_ms : Option ℚ
  status_code : Option ℤ
deriving DecidableEq

/-- `score_ping_row` from `quality_score.py`. `E` stands for `math.exp`.
Missing latency/jitter are substituted with `9999.0`; a missing
`packet_loss_pct` is substituted with `0.0` (the source line
`loss = float(loss) if pd.notna(loss) else 0.0`). -/
def score_ping_row (E : ℚ → ℚ) (has_loss_col : Bool) (row : LogRow) : ℚ :=
  if row.success = 0 then 0
  else
    let lat := row.latency_ms.getD 9999
    let jit := row.jitter_ms.getD 9999
    let lat_score := 100 * E (-(lat / 200))
    let jit_score := 100 * E (-(jit / 20))
    if has_loss_col then
      let loss := row.packet_loss_pct.getD 0
      let loss_score := 100 * E (-(loss / 2))
      clamp (0.55 * lat_score + 0.30 * jit_score + 0.15 * loss_score)
    else
      clamp (0.65 * lat_score + 0.35 * jit_score)

/-- `score_dns_row` from `quality_score.py`. `row.get("dns_ms",
row.get("latency_ms"))` reads `dns_ms` when the column exists (NaN included),
falling back to `latency_ms` only when the whole column is absent
(`has_dns_col = false`); a value that is still missing becomes `9999.0`. -/
def score_dns_row (E : ℚ → ℚ) (has_dns_col : Bool) (row : LogRow) : ℚ :=
  if row.success = 0 then 0
  else
    let v := if has_dns_col then row.dns_ms else row.latency_ms
    let dns_ms := v.getD 9999
    clamp (100 * E (-(dns_ms / 50)))

/-- `score_http_row` from `quality_score.py`: exponential timing term with
decay 300 ms, multiplied by 0.40 for a 5xx status and 0.70 for a 4xx status;
missing timing becomes `9999.0`, missing status applies no multiplier. -/
def score_http_row (E : ℚ → ℚ) (has_http_col : Bool) (row : LogRow) : ℚ :=
  if row.success = 0 then 0
  else
    let v := if has_http_col then row.http_ms else row.latency_ms
    let http_ms := v.getD 9999
    let timing := 100 * E (-(http_ms / 300))
    let timing2 :=
      match row.status_code with
      | some code =>
          if 500 ≤ code ∧ code < 600 then timing * 0.40
          else if 400 ≤ code ∧ code < 500 then timing * 0.70
          else timing
      | none => timing
    clamp timing2

/-- The per-probe dispatch in `quality_score.main`: `df["score"] = 0.0`
followed by the three `df.loc[probe == kind, "score"] = ...` assignments, so
any other probe kind keeps score 0. -/
def score_row (E : ℚ → ℚ) (has_loss_col has_dns_col has_http_col : Bool)
    (probe_type : String) (row : LogRow) : ℚ :=
  if probe_type = "ping" then score_ping_row E has_loss_col row
  else if probe_type = "dns" then score_dns_row E has_dns_col row
  else if probe_type = "http" then score_http_row E has_http_col row
  else 0

/-- `tier_from_score` from `quality_score.py`. -/
def tier_from_score (score : ℚ) : String :=
  if 80 ≤ score then "good" else if 50 ≤ score then "ok" else "bad"

/-! ## Baseline Windower (`detect_bad_intervals.build_window_table`) -/

/-- One scored sample as consumed by `build_window_table`: the `timestamp`,
`score` and `is_bad` columns of the cleaned dataframe. -/
structure SRow where
  timestamp : ℤ
  score : ℚ
  is_bad : Bool
deriving DecidableEq

/-- The 0/1 value of the `is_bad` column. -/
def badVal (r : SRow) : ℚ := if r.is_bad then 1 else 0

/-- Order used by `df.sort_values("timestamp")`. -/
def timeLE (a b : SRow) : Prop := a.timestamp ≤ b.timestamp

instance : DecidableRel timeLE := fun a b => Int.decLe a.timestamp b.timestamp

instance : IsTotal SRow timeLE := ⟨fun a b => Int.le_total a.timestamp b.timestamp⟩

instance : IsTrans SRow timeLE := ⟨fun _ _ _ h h2 => le_trans h h2⟩

/-- `df.sort_values("timestamp")`. -/
def sortByTime (l : List SRow) : List SRow := l.insertionSort timeLE

/-- The pandas time-based rolling window evaluated at row `i` of the sorted
frame: rows up to position `i` whose timestamp lies in the left-open
interval `(tᵢ - W, tᵢ]` (the default `closed="right"` of an offset-based
`rolling`). -/
def rollWin (W : ℤ) (s : List SRow) (i : ℕ) : List SRow :=
  match s[i]? with
  | none => []
  | some r => (s.take (i + 1)).filter (fun x => decide (r.timestamp - W < x.timestamp))

/-- `min_periods=MIN_SAMPLES`: the rolling aggregate at row `i` is non-NaN
iff the window holds at least `m` samples. -/
def validAt (W : ℤ) (m : ℕ) (s : List SRow) (i : ℕ) : Bool :=
  decide (m ≤ (rollWin W s i).length)

/-- The resample bin label of timestamp `t` for bin width `step`:
`resample` bins are `[b, b + step)` with `b` a multiple of `step`
(label="left", closed="left", epoch-aligned origin). -/
def binOf (step t : ℤ) : ℤ := step * ⌊(t : ℚ) / (step : ℚ)⌋

/-- `resample(step).last()` keeps, for each bin, the last row whose rolling
aggregates are non-NaN (`Resampler.last` skips NaN; the three rolling
columns are NaN simultaneously because they share `min_periods`). -/
def lastValidIdx (W step : ℤ) (m : ℕ) (s : List SRow) (b : ℤ) : Option ℕ :=
  ((List.range s.length).filter
    (fun i => decide (binOf step (((s[i]?).map SRow.timestamp).getD 0) = b)
      && validAt W m s i)).getLast?

/-- A row of the window table produced by `build_window_table`. -/
structure WindowRow where
  window_end : ℤ
  window_start : ℤ
  mean_score : ℚ
  bad_pct : ℚ
  n_samples : ℕ
deriving DecidableEq

/-- The emitted window row of one resample bin, if any: `window_end` is the
bin label, `window_start = window_end - W`, and the aggregates are the
rolling aggregates of the chosen row, rounded to two decimals
(`sampled["mean_score"].round(2)` etc.). -/
def emitBin (W step : ℤ) (m : ℕ) (s : List SRow) (b : ℤ) : Option WindowRow :=
  (lastValidIdx W step m s b).map (fun i =>
    let win := rollWin W s i
    { window_end := b
      window_start := b - W
      mean_score := round2 (qmean (win.map SRow.score))
      bad_pct := round2 (100 * qmean (win.map badVal))
      n_samples := win.length })

/-- The resample bins that contain at least one sample, in time order. -/
def binsOf (step : ℤ) (s : List SRow) : List ℤ :=
  (s.map (fun r => binOf step r.timestamp)).dedup

/-- `build_window_table` from `detect_bad_intervals.py`, parameterized by the
module constants `W = WINDOW_MINUTES` (in seconds), `step = STEP_MINUTES`
(in seconds) and `m = MIN_SAMPLES`: sort by timestamp, compute the rolling
aggregates with `min_periods = m`, resample at `step` keeping the last valid
row per bin, drop all-NaN bins, and attach `window_start`/`window_end`. -/
def build_window_table (W step : ℤ) (m : ℕ) (rows : List SRow) : List WindowRow :=
  let s := sortByTime rows
  (binsOf step s).filterMap (emitBin W step m s)

/-- Module constant `WINDOW_MINUTES = 5`, in seconds. -/
def WINDOW_SECONDS : ℤ := 300

/-- Module constant `STEP_MINUTES = 1`, in seconds. -/
def STEP_SECONDS : ℤ := 60

/-- Module constant `MIN_SAMPLES = 30`. -/
def MIN_SAMPLES : ℕ := 30

/-! ## Global Baseliner and Window Classifier (`detect_bad_intervals.main`) -/

/-- The degeneracy threshold `1e-9` of `main`. -/
def EPS : ℚ := 1 / 1000000000

/-- `global_mean = float(windows["mean_score"].mean())`. -/
def global_mean (ws : List WindowRow) : ℚ := qmean (ws.map WindowRow.mean_score)

/-- Population variance (`std(ddof=0)` squared) of a list of rationals.
`global_std` itself is the (generally irrational) square root of this, so
the theorems take the standard deviation as a nonnegative rational `gstd`
with `gstd ^ 2 = variance_pop ...`. -/
def variance_pop (l : List ℚ) : ℚ := qmean (l.map (fun x => (x - qmean l) ^ 2))

/-- The per-window z-score assignment of `main`:
`(mean_score - global_mean) / global_std` when `global_std > 1e-9`, else
`0.0` for every window. -/
def window_score_z (gm gstd ms : ℚ) : ℚ :=
  if EPS < gstd then (ms - gm) / gstd else 0

/-- The `windows["window_score_z"]` column. -/
def add_z (gm gstd : ℚ) (ws : List WindowRow) : List ℚ :=
  ws.map (fun w => window_score_z gm gstd w.mean_score)

/-- `severity_from` from `detect_bad_intervals.py`. -/
def severity_from (z bad_pct : ℚ) : ℕ :=
  if z ≤ -2 ∨ 80 ≤ bad_pct then 3
  else if z ≤ -3/2 ∨ 60 ≤ bad_pct then 2
  else if z ≤ -1 ∨ 50 ≤ bad_pct then 1
  else 0

/-! ## Interval Merger (`detect_bad_intervals.merge_bad_windows`) -/

/-- A classified window row as consumed by `merge_bad_windows`: the window
table columns plus the flag, `is_bad_window` and `severity` columns added by
`main`. -/
structure CWRow where
  window_start : ℤ
  window_end : ℤ
  mean_score : ℚ
  bad_pct : ℚ
  n_samples : ℕ
  flag_low_mean : Bool
  flag_high_bad : Bool
  is_bad_window : Bool
  severity : ℕ
deriving DecidableEq

/-- One output interval of `merge_bad_windows` (the engine's incident).
`duration_seconds` is integral in this model, so the dataframe-level
`round(2)` on it is the identity and is omitted. -/
structure Incident where
  start_time : ℤ
  end_time : ℤ
  duration_seconds : ℤ
  mean_score : ℚ
  bad_pct : ℚ
  n_samples : ℕ
  num_windows : ℕ
  severity : ℕ
  reason : String
deriving DecidableEq

/-- The open-interval accumulator of the merge scan (`cur_start`, `cur_end`,
the three weighted sums, `num_windows`, `cur_sev`, the two reason flags). -/
structure MState where
  cur_start : ℤ
  cur_end : ℤ
  w_sum_score : ℚ
  w_sum_bad : ℚ
  w_sum_n : ℕ
  num_windows : ℕ
  cur_sev : ℕ
  any_low_mean : Bool
  any_high_bad : Bool
deriving DecidableEq

/-- Opening a fresh interval at a bad window. -/
def initState (r : CWRow) : MState :=
  { cur_start := r.window_start
    cur_end := r.window_end
    w_sum_score := r.mean_score * (r.n_samples : ℚ)
    w_sum_bad := r.bad_pct * (r.n_samples : ℚ)
    w_sum_n := r.n_samples
    num_windows := 1
    cur_sev := r.severity
    any_low_mean := r.flag_low_mean
    any_high_bad := r.flag_high_bad }

/-- Absorbing a contiguous bad window into the open interval. -/
def absorb (st : MState) (r : CWRow) : MState :=
  { cur_start := st.cur_start
    cur_end := max st.cur_end r.window_end
    w_sum_score := st.w_sum_score + r.mean_score * (r.n_samples : ℚ)
    w_sum_bad := st.w_sum_bad + r.bad_pct * (r.n_samples : ℚ)
    w_sum_n := st.w_sum_n + r.n_samples
    num_windows := st.num_windows + 1
    cur_sev := max st.cur_sev r.severity
    any_low_mean := st.any_low_mean || r.flag_low_mean
    any_high_bad := st.any_high_bad || r.flag_high_bad }

/-- `finalize_interval` from `merge_bad_windows`. -/
def finalize (st : MState) : Incident :=
  { start_time := st.cur_start
    end_time := st.cur_end
    duration_seconds := st.cur_end - st.cur_start
    mean_score := round2 (if 0 < st.w_sum_n then st.w_sum_score / (st.w_sum_n : ℚ) else 0)
    bad_pct := round2 (if 0 < st.w_sum_n then st.w_sum_bad / (st.w_sum_n : ℚ) else 0)
    n_samples := st.w_sum_n
    num_windows := st.num_windows
    severity := st.cur_sev
    reason :=
      if st.any_low_mean && st.any_high_bad then "low_mean+high_bad"
      else if st.any_low_mean then "low_mean"
      else "high_bad" }

/-- The linear scan of `merge_bad_windows`: a window is absorbed iff its
`window_start ≤ cur_end + step`; otherwise the open interval is finalized
and a fresh one starts; the last open interval is finalized after the
loop. -/
def mergeScan (step : ℤ) (st : MState) : List CWRow → List Incident
  | [] => [finalize st]
  | r :: rs =>
    if r.window_start ≤ st.cur_end + step then mergeScan step (absorb st r) rs
    else finalize st :: mergeScan step (initState r) rs

/-- Order used by `bad.sort_values("window_start")`. -/
def startLE (a b : CWRow) : Prop := a.window_start ≤ b.window_start

instance : DecidableRel startLE := fun a b => Int.decLe a.window_start b.window_start

instance : IsTotal CWRow startLE := ⟨fun a b => Int.le_total a.window_start b.window_start⟩

instance : IsTrans CWRow startLE := ⟨fun _ _ _ h h2 => le_trans h h2⟩

/-- The final ordering of `merge_bad_windows`:
`sort_values(["severity", "duration_seconds"], ascending=[False, False])`. -/
def sevDurGE (a b : Incident) : Prop :=
  b.severity < a.severity ∨ (a.severity = b.severity ∧ b.duration_seconds ≤ a.duration_seconds)

instance : DecidableRel sevDurGE := fun a b => by unfold sevDurGE; infer_instance

instance : IsTotal Incident sevDurGE := ⟨by intro a b; unfold sevDurGE; omega⟩

instance : IsTrans Incident sevDurGE := ⟨by intro a b c hab hbc; unfold sevDurGE at *; omega⟩

/-- `merge_bad_windows` from `detect_bad_intervals.py`: filter to
`is_bad_window`, sort by `window_start`, run the merge scan, and order the
resulting intervals by severity then duration, both descending. -/
def merge_bad_windows (step : ℤ) (w : List CWRow) : List Incident :=
  match (w.filter (fun r => r.is_bad_window)).insertionSort startLE with
  | [] => []
  | r :: rs => (mergeScan step (initState r) rs).insertionSort sevDurGE

/-! ## Attribution & Diagnosis (`attribute_services`, `add_diagnosis`) -/

/-- One scored sample row as consumed by `attribute_services`: timestamp,
`service_name` and the 0/1 `is_bad` column. -/
structure PRow where
  timestamp : ℤ
  service_name : String
  is_bad : Bool
deriving DecidableEq

/-- One row of the per-service groupby aggregate inside
`attribute_services`: `bad_pct = 100 * mean(is_bad)` and the group size. -/
structure SvcAgg where
  service_name : String
  bad_pct : ℚ
  n : ℕ
deriving DecidableEq

/-- The groupby aggregate for one service name. -/
def svcAgg (seg : List PRow) (name : String) : SvcAgg :=
  let g := seg.filter (fun r => r.service_name == name)
  { service_name := name
    bad_pct := 100 * qmean (g.map (fun r => if r.is_bad then (1 : ℚ) else 0))
    n := g.length }

/-- `seg.groupby("service_name").agg(...)`; group keys in first-occurrence
order (pandas sorts keys alphabetically, which can differ from this only in
how later value-sorts break exact ties; ties are avoided in the concrete
inputs below). -/
def perService (seg : List PRow) : List SvcAgg :=
  ((seg.map PRow.service_name).dedup).map (svcAgg seg)

/-- Order of `per.sort_values(["bad_pct", "n"], ascending=[False, False])`. -/
def badDescGE (a b : SvcAgg) : Prop :=
  b.bad_pct < a.bad_pct ∨ (a.bad_pct = b.bad_pct ∧ b.n ≤ a.n)

instance : DecidableRel badDescGE := fun a b => by unfold badDescGE; infer_instance

instance : IsTotal SvcAgg badDescGE := ⟨by
  intro a b
  unfold badDescGE
  rcases lt_trichotomy a.bad_pct b.bad_pct with h | h | h
  · right; left; exact h
  · rcases Nat.le_total b.n a.n with h2 | h2
    · left; right; exact ⟨h, h2⟩
    · right; right; exact ⟨h.symm, h2⟩
  · left; left; exact h⟩

instance : IsTrans SvcAgg badDescGE := ⟨by
  intro a b c hab hbc
  unfold badDescGE at *
  rcases hab with h1 | ⟨h1, h1n⟩ <;> rcases hbc with h2 | ⟨h2, h2n⟩
  · left; exact h2.trans h1
  · left; exact h2 ▸ h1
  · left; exact h1 ▸ h2
  · right; exact ⟨h1.trans h2, h2n.trans h1n⟩⟩

/-- Order of `per.sort_values("n", ascending=False)`. -/
def countDescGE (a b : SvcAgg) : Prop := b.n ≤ a.n

instance : DecidableRel countDescGE := fun a b => Nat.decLe b.n a.n

instance : IsTotal SvcAgg countDescGE := ⟨fun a b => (Nat.le_total b.n a.n).imp id id⟩

instance : IsTrans SvcAgg countDescGE := ⟨fun _ _ _ h h2 => le_trans h2 h⟩

/-- The digits of the `{pct:.0f}` format (rounded to an integer). -/
def pctDigits (p : ℚ) : List Char := (toString (round p)).toList

/-- One `f"{name}({pct:.0f}%)"` entry of the top-by-bad-fraction string. -/
def svcEntry (a : SvcAgg) : List Char :=
  a.service_name.toList ++ '(' :: pctDigits a.bad_pct ++ ['%', ')']

/-- One `f"{name}({n})"` entry of the top-by-count string. -/
def countEntry (a : SvcAgg) : List Char :=
  a.service_name.toList ++ '(' :: (toString a.n).toList ++ [')']

/-- The `",".join(entries)` of the attribution strings. -/
def joinComma : List (List Char) → List Char
  | [] => []
  | [x] => x
  | x :: y :: ys => x ++ ',' :: joinComma (y :: ys)

/-- The `top_k` services ranked by bad fraction (then count), as in
`attribute_services`. -/
def topBadList (per : List SvcAgg) (k : ℕ) : List SvcAgg :=
  (per.insertionSort badDescGE).take k

/-- An incident enriched by `attribute_services`. The two formatted strings
are kept as their character lists. -/
structure AttrIncident where
  base : Incident
  affected_services_count : ℕ
  top_services_by_bad_pct : List Char
  top_services_by_count : List Char
deriving DecidableEq

/-- `attribute_services` for one interval: filter the raw rows to
`[start_time, end_time]` (both inclusive), group by service, rank, format;
an interval with no rows in range gets zero/empty attribution. -/
def attribute_one (rows : List PRow) (k : ℕ) (itv : Incident) : AttrIncident :=
  let seg := rows.filter
    (fun r => decide (itv.start_time ≤ r.timestamp) && decide (r.timestamp ≤ itv.end_time))
  if seg.isEmpty then ⟨itv, 0, [], []⟩
  else
    let per := perService seg
    { base := itv
      affected_services_count := (per.filter (fun a => decide (0 < a.bad_pct))).length
      top_services_by_bad_pct := joinComma ((topBadList per k).map svcEntry)
      top_services_by_count :=
        joinComma (((per.insertionSort countDescGE).take k).map countEntry) }

/-- `attribute_services` from `detect_bad_intervals.py`; when the input has
no `service_name` column, every interval gets zero/empty attribution. -/
def attribute_services (has_service_col : Bool) (rows : List PRow)
    (itvs : List Incident) (k : ℕ) : List AttrIncident :=
  if has_service_col then itvs.map (attribute_one rows k)
  else itvs.map (fun itv => ⟨itv, 0, [], []⟩)

/-- Substring test on character lists; models
`Series.str.contains(needle, regex=False)`. -/
def subOcc (needle : List Char) : List Char → Bool
  | [] => needle.isEmpty
  | c :: cs => needle.isPrefixOf (c :: cs) || subOcc needle cs

/-- An incident enriched by `add_diagnosis`. -/
structure DiagIncident where
  attr : AttrIncident
  gateway_involved : Bool
  diagnosis : String
deriving DecidableEq

/-- Module constant `NETWORK_WIDE_MIN_AFFECTED_SERVICES = 8`. -/
def NETWORK_WIDE_MIN_AFFECTED_SERVICES : ℕ := 8

/-- `add_diagnosis` from `detect_bad_intervals.py`: `gateway_involved` is the
literal substring test `"gateway(" in top_services_by_bad_pct`, and
`diagnosis` compares `affected_services_count` against the network-wide
threshold. -/
def add_diagnosis (itvs : List AttrIncident) : List DiagIncident :=
  itvs.map (fun itv =>
    { attr := itv
      gateway_involved := subOcc ("gateway(").toList itv.top_services_by_bad_pct
      diagnosis :=
        if NETWORK_WIDE_MIN_AFFECTED_SERVICES ≤ itv.affected_services_count then "network_wide"
        else "service_specific" })

/-! ## Input validation and cleaning (`detect_bad_intervals.main`, lines
323-336) -/

/-- One raw CSV row after parsing attempts: `timestamp` is the result of
`pd.to_datetime(..., errors="coerce")` (`none` = NaT), `score` the result of
`pd.to_numeric(..., errors="coerce")` (`none` = NaN). -/
structure RawRow where
  timestamp : Option ℤ
  score : Option ℚ
  tier : String
deriving DecidableEq

/-- A raw input table: its header and its rows. -/
structure RawTable where
  cols : List String
  rows : List RawRow
deriving DecidableEq

/-- The `required = {"timestamp", "score", "tier"}` set of `main`, listed in
the order produced by `sorted(missing)`. -/
def requiredCols : List String := ["score", "tier", "timestamp"]

/-- The row survives `dropna(subset=["timestamp"])` and
`dropna(subset=["score"])`, and `is_bad = (tier == "bad")`. -/
def cleanRow (r : RawRow) : Option SRow :=
  match r.timestamp, r.score with
  | some t, some sc => some ⟨t, sc, r.tier == "bad"⟩
  | _, _ => none

/-- The validation and cleaning prefix of `detect_bad_intervals.main`:
missing required columns raise `ValueError` naming `sorted(missing)`
(modelled as `Except.error missing`); otherwise timestamps and scores are
coerced and rows with unparseable values are dropped, and the run
proceeds. -/
def main_prelude (t : RawTable) : Except (List String) (List SRow) :=
  if (requiredCols.filter (fun c => !(t.cols.contains c))).isEmpty
  then Except.ok (t.rows.filterMap cleanRow)
  else Except.error (requiredCols.filter (fun c => !(t.cols.contains c)))

/-! ## Specification-side definitions

These definitions follow the words of the specification (not the source) and
exist only to be compared with the source-derived definitions above. -/

/-- The aggregate the specification prescribes for a boundary `b`: all
samples whose timestamp falls within the closed interval `[b - W, b]`
(spec §4.2). The source aggregates a different sample set; see the C3
theorems. -/
def closedWindow (W : ℤ) (rows : List SRow) (b : ℤ) : List SRow :=
  rows.filter (fun x => decide (b - W ≤ x.timestamp) && decide (x.timestamp ≤ b))

/-- The destination names of the top-by-bad-fraction list of one incident,
as the specification's reading of `gateway_involved` requires
("a destination literally named gateway appears in the top list"). -/
def topBadNames (rows : List PRow) (itv : Incident) (k : ℕ) : List String :=
  (topBadList (perService (rows.filter
    (fun r => decide (itv.start_time ≤ r.timestamp) && decide (r.timestamp ≤ itv.end_time)))) k).map
    SvcAgg.service_name

/-! ## Concrete inputs used by the witnesses and counterexamples below -/

/-- A piecewise-linear stand-in for the decaying exponential, used only to
exhibit concrete score values. -/
def linDecay (x : ℚ) : ℚ := max 0 (1 + x)

/-- A successful ping row with zero latency and jitter and an absent
`packet_loss_pct`. -/
def c7row_missing : LogRow := ⟨1, some 0, some 0, none, none, none, none⟩

/-- The same row with `packet_loss_pct = 0`. -/
def c7row_zero : LogRow := ⟨1, some 0, some 0, some 0, none, none, none⟩

/-- The same row with `packet_loss_pct = 40`. -/
def c7row_loss : LogRow := ⟨1, some 0, some 0, some 40, none, none, none⟩

/-- Whether every window of the list is absorbed into the open interval when
the scan starts from state `st`: each successive `window_start` is at most
the running `cur_end + step`. -/
def contigAll (step : ℤ) : MState → List CWRow → Bool
  | _, [] => true
  | st, r :: rs => decide (r.window_start ≤ st.cur_end + step) && contigAll step (absorb st r) rs

/-- C1 counterexample input: a bad window `[0, 300]`. -/
def c1w1 : CWRow := ⟨0, 300, 10, 100, 30, false, true, true, 1⟩

/-- C1 counterexample input: a bad window `[120, 420]`, whose start gap from
`c1w1` is 120 seconds, twice the 60-second step. -/
def c1w2 : CWRow := ⟨120, 420, 20, 100, 60, false, true, true, 3⟩

/-- C2 counterexample input: a bad window `[0, 300]` with mean score 10 over
30 samples. -/
def c2w1 : CWRow := ⟨0, 300, 10, 100, 30, false, true, true, 1⟩

/-- C2 counterexample input: the adjacent bad window `[60, 360]` with mean
score 20 over 60 samples. -/
def c2w2 : CWRow := ⟨60, 360, 20, 100, 60, false, true, true, 1⟩

/-- C3/C4 counterexample input: four scored samples; the sample at `t = 0`
sits exactly on the left edge of the 300-second window ending at `t = 300`. -/
def c3rows : List SRow :=
  [⟨0, 0, false⟩, ⟨100, 100, false⟩, ⟨200, 100, false⟩, ⟨300, 100, false⟩]

/-- C4 counterexample input: two bursts of three samples, 600 seconds
apart, so several step bins in between emit no window. -/
def c4rows : List SRow :=
  [⟨0, 100, false⟩, ⟨10, 100, false⟩, ⟨20, 100, false⟩,
   ⟨600, 100, false⟩, ⟨610, 100, false⟩, ⟨620, 100, false⟩]

/-- C10 example input: two far-apart bad windows; the later one has the
higher severity, so the incident list is not chronological. -/
def c10rows : List CWRow :=
  [⟨0, 300, 10, 100, 30, false, true, true, 1⟩,
   ⟨10000, 10300, 5, 100, 30, false, true, true, 3⟩]

/-- C8 counterexample input: an incident covering `[0, 100]`. -/
def c8itv : Incident := ⟨0, 100, 100, 10, 100, 1, 1, 3, "high_bad"⟩

/-- C8 counterexample input: a single bad sample from a service named
`mygateway` — not literally `gateway`. -/
def c8rows : List PRow := [⟨50, "mygateway", true⟩]

/-- C9 counterexample input: a table with all required columns whose first
row has an unparseable timestamp (NaT after coercion). -/
def c9table : RawTable :=
  ⟨["timestamp", "score", "tier"], [⟨none, some 50, "bad"⟩, ⟨some 10, some 90, "good"⟩]⟩

/-- C8 witness input: an enriched incident whose top-by-bad-fraction string
is `mygateway(100%)`. -/
def c8attr : AttrIncident := ⟨c8itv, 1, ("mygateway(100%)").toList, ("mygateway(1)").toList⟩

/-- C8 witness value: the diagnosis row `add_diagnosis` produces for
`c8attr` (the substring test on `mygateway(100%)` is positive). -/
def c8diag : DiagIncident := ⟨c8attr, true, "service_specific"⟩

/-- C8 witness input: a per-service aggregate literally named `gateway`. -/
def c8svc : SvcAgg := ⟨"gateway", 50, 1⟩

/-! ## Basic facts about the scorer -/

/-- `clamp` never goes below 0. -/
theorem clamp_nonneg (x : ℚ) : 0 ≤ clamp x := le_max_left 0 _

/-- `clamp` never exceeds 100. -/
theorem clamp_le_100 (x : ℚ) : clamp x ≤ 100 := max_le (by norm_num) (min_le_left _ _)

/-- Bounds for the ping scorer. -/
theorem score_ping_row_bounds (E : ℚ → ℚ) (hl : Bool) (row : LogRow) :
    0 ≤ score_ping_row E hl row ∧ score_ping_row E hl row ≤ 100 := by
  unfold score_ping_row
  split_ifs <;> first
    | exact ⟨le_refl 0, by norm_num⟩
    | exact ⟨clamp_nonneg _, clamp_le_100 _⟩

/-- Bounds for the DNS scorer. -/
theorem score_dns_row_bounds (E : ℚ → ℚ) (hd : Bool) (row : LogRow) :
    0 ≤ score_dns_row E hd row ∧ score_dns_row E hd row ≤ 100 := by
  unfold score_dns_row
  split_ifs <;> first
    | exact ⟨le_refl 0, by norm_num⟩
    | exact ⟨clamp_nonneg _, clamp_le_100 _⟩

/-- Bounds for the HTTP scorer. -/
theorem score_http_row_bounds (E : ℚ → ℚ) (hh : Bool) (row : LogRow) :
    0 ≤ score_http_row E hh row ∧ score_http_row E hh row ≤ 100 := by
  unfold score_http_row
  split_ifs <;> first
    | exact ⟨le_refl 0, by norm_num⟩
    | exact ⟨clamp_nonneg _, clamp_le_100 _⟩

/-- C6: for every sample of every probe kind (and for every exponential
function, every column-presence configuration), the score is between 0 and
100 inclusive, and a failed sample (`success = 0`) scores exactly 0
regardless of probe kind and of the other fields. -/
theorem C6_score_bounds (E : ℚ → ℚ) (hl hd hh : Bool) (probe_type : String) (row : LogRow) :
    0 ≤ score_row E hl hd hh probe_type row ∧
    score_row E hl hd hh probe_type row ≤ 100 ∧
    (row.success = 0 → score_row E hl hd hh probe_type row = 0) := by
  unfold score_row
  split_ifs
  · exact ⟨(score_ping_row_bounds E hl row).1, (score_ping_row_bounds E hl row).2,
      fun h => by unfold score_ping_row; rw [if_pos h]⟩
  · exact ⟨(score_dns_row_bounds E hd row).1, (score_dns_row_bounds E hd row).2,
      fun h => by unfold score_dns_row; rw [if_pos h]⟩
  · exact ⟨(score_http_row_bounds E hh row).1, (score_http_row_bounds E hh row).2,
      fun h => by unfold score_http_row; rw [if_pos h]⟩
  · exact ⟨le_refl 0, by norm_num, fun _ => rfl⟩

/-- Witness for C6 at a concrete failed ping sample. -/
theorem C6_score_bounds_witness :
    0 ≤ score_row (fun x => x) true true true "ping" ⟨0, none, none, none, none, none, none⟩ ∧
    score_row (fun x => x) true true true "ping" ⟨0, none, none, none, none, none, none⟩ ≤ 100 ∧
    ((⟨0, none, none, none, none, none, none⟩ : LogRow).success = 0 →
      score_row (fun x => x) true true true "ping" ⟨0, none, none, none, none, none, none⟩ = 0) :=
  C6_score_bounds (fun x => x) true true true "ping" ⟨0, none, none, none, none, none, none⟩

/-- C7 counterexample: a ping row whose `packet_loss_pct` is missing scores
exactly like a row with zero loss — the best possible loss value — and
strictly higher than a row with loss recorded, so the missing loss field is
not substituted with a high-penalty value and does not lower the score. -/
theorem C7_counterexample :
    c7row_missing.packet_loss_pct = none ∧
    score_ping_row linDecay true c7row_missing = 100 ∧
    score_ping_row linDecay true c7row_zero = 100 ∧
    score_ping_row linDecay true c7row_loss = 85 ∧
    score_ping_row linDecay true c7row_loss < score_ping_row linDecay true c7row_missing := by
  refine ⟨rfl, ?_, ?_, ?_, ?_⟩ <;>
    norm_num [score_ping_row, c7row_missing, c7row_zero, c7row_loss, linDecay, clamp]

/-- C7 (amended): the scorer is total, and each missing timing field
(latency, jitter, DNS resolution time, HTTP response time) is substituted
with the fixed high-penalty value 9999 ms; a missing `packet_loss_pct`,
however, is substituted with 0 (treated as no loss), and when the `dns_ms`
(resp. `http_ms`) column is absent entirely the scorer falls back to
`latency_ms` before applying the 9999 substitute. -/
theorem C7_missing_field_substitution (E : ℚ → ℚ) (hl : Bool) (row : LogRow) :
    score_ping_row E hl { row with latency_ms := none }
      = score_ping_row E hl { row with latency_ms := some 9999 } ∧
    score_ping_row E hl { row with jitter_ms := none }
      = score_ping_row E hl { row with jitter_ms := some 9999 } ∧
    score_ping_row E true { row with packet_loss_pct := none }
      = score_ping_row E true { row with packet_loss_pct := some 0 } ∧
    score_dns_row E true { row with dns_ms := none }
      = score_dns_row E true { row with dns_ms := some 9999 } ∧
    score_dns_row E false row = score_dns_row E true { row with dns_ms := row.latency_ms } ∧
    score_http_row E true { row with http_ms := none }
      = score_http_row E true { row with http_ms := some 9999 } ∧
    score_http_row E false row = score_http_row E true { row with http_ms := row.latency_ms } := by
  unfold score_ping_row score_dns_row score_http_row
  simp

/-! ## The Window Classifier's z-scores (C5) -/

/-- C5: for every window table and every nonnegative standard deviation
`gstd` whose square is the population variance of the window mean scores
(this pins `gstd` to `windows["mean_score"].std(ddof=0)`): when
`gstd > 1e-9` every window's z-score is exactly
`(mean_score - global_mean) / gstd`, and when `gstd ≤ 1e-9` (the degenerate
case, in particular an exactly constant score) every window's z-score is 0;
the assignment is total, so no z-score is undefined. -/
theorem C5_zscore_validity (ws : List WindowRow) (gstd : ℚ) (hnn : 0 ≤ gstd)
    (hvar : gstd ^ 2 = variance_pop (ws.map WindowRow.mean_score)) :
    (EPS < gstd →
      add_z (global_mean ws) gstd ws
        = ws.map (fun w => (w.mean_score - global_mean ws) / gstd)) ∧
    (gstd ≤ EPS → add_z (global_mean ws) gstd ws = ws.map (fun _ => 0)) := by
  constructor
  · intro h
    simp [add_z, window_score_z, if_pos h]
  · intro h
    simp [add_z, window_score_z, if_neg (not_lt.mpr h)]

/-- Witness for C5 at a two-window table with mean scores 0 and 2 (variance
1, standard deviation 1). -/
theorem C5_zscore_validity_witness :
    (0 : ℚ) ≤ 1 ∧
    (1 : ℚ) ^ 2 = variance_pop (([⟨0, -300, 0, 0, 30⟩, ⟨60, -240, 2, 0, 30⟩] :
      List WindowRow).map WindowRow.mean_score) ∧
    ((EPS < 1 →
      add_z (global_mean [⟨0, -300, 0, 0, 30⟩, ⟨60, -240, 2, 0, 30⟩]) 1
          [⟨0, -300, 0, 0, 30⟩, ⟨60, -240, 2, 0, 30⟩]
        = ([⟨0, -300, 0, 0, 30⟩, ⟨60, -240, 2, 0, 30⟩] : List WindowRow).map
            (fun w => (w.mean_score - global_mean [⟨0, -300, 0, 0, 30⟩, ⟨60, -240, 2, 0, 30⟩]) / 1)) ∧
    ((1 : ℚ) ≤ EPS →
      add_z (global_mean [⟨0, -300, 0, 0, 30⟩, ⟨60, -240, 2, 0, 30⟩]) 1
          [⟨0, -300, 0, 0, 30⟩, ⟨60, -240, 2, 0, 30⟩]
        = ([⟨0, -300, 0, 0, 30⟩, ⟨60, -240, 2, 0, 30⟩] : List WindowRow).map (fun _ => 0))) :=
  ⟨by norm_num,
   by norm_num [variance_pop, qmean],
   C5_zscore_validity [⟨0, -300, 0, 0, 30⟩, ⟨60, -240, 2, 0, 30⟩] 1 (by norm_num)
     (by norm_num [variance_pop, qmean])⟩

/-! ## The Interval Merger (C1, C2, C10) -/

/-- The merge scan always emits at least the open interval. -/
theorem mergeScan_ne_nil (step : ℤ) (st : MState) (rs : List CWRow) :
    mergeScan step st rs ≠ [] := by
  induction rs generalizing st with
  | nil => simp [mergeScan]
  | cons r rs ih =>
    unfold mergeScan
    split
    · exact ih _
    · simp

/-- Window conservation through the scan: the emitted `num_windows` values
add up to the windows already in the open interval plus the windows still to
be scanned. -/
theorem mergeScan_num_windows_sum (step : ℤ) (rs : List CWRow) : ∀ st : MState,
    ((mergeScan step st rs).map Incident.num_windows).sum = st.num_windows + rs.length := by
  induction rs with
  | nil => intro st; simp [mergeScan, finalize]
  | cons r rs ih =>
    intro st
    unfold mergeScan
    split
    · rw [ih]
      simp [absorb]
      omega
    · simp only [List.map_cons, List.sum_cons, ih, finalize, initState]
      simp
      omega

/-- The merge scan of an everywhere-contiguous run produces the single
interval accumulated over the whole run. -/
theorem mergeScan_contig (step : ℤ) (rs : List CWRow) : ∀ st : MState,
    contigAll step st rs = true → mergeScan step st rs = [finalize (rs.foldl absorb st)] := by
  induction rs with
  | nil => intro st _; simp [mergeScan]
  | cons r rs ih =>
    intro st h
    unfold contigAll at h
    rw [Bool.and_eq_true, decide_eq_true_eq] at h
    unfold mergeScan
    rw [if_pos h.1]
    simpa using ih (absorb st r) h.2

/-- The accumulator of a fold of `absorb` holds the weighted sums, sample
total and window count of the absorbed windows. -/
theorem foldl_absorb_fields (rs : List CWRow) : ∀ st : MState,
    (rs.foldl absorb st).w_sum_score
        = st.w_sum_score + (rs.map (fun x => x.mean_score * (x.n_samples : ℚ))).sum ∧
    (rs.foldl absorb st).w_sum_bad
        = st.w_sum_bad + (rs.map (fun x => x.bad_pct * (x.n_samples : ℚ))).sum ∧
    (rs.foldl absorb st).w_sum_n = st.w_sum_n + (rs.map CWRow.n_samples).sum ∧
    (rs.foldl absorb st).num_windows = st.num_windows + rs.length := by
  induction rs with
  | nil => intro st; simp
  | cons r rs ih =>
    intro st
    obtain ⟨h1, h2, h3, h4⟩ := ih (absorb st r)
    rw [List.foldl_cons]
    refine ⟨?_, ?_, ?_, ?_⟩
    · rw [h1]; simp [absorb]; ring
    · rw [h2]; simp [absorb]; ring
    · rw [h3]; simp [absorb]; omega
    · rw [h4]; simp [absorb]; omega

/-- C1 counterexample: two bad windows whose `window_start` gap is 120
seconds — twice the 60-second step — are nevertheless merged into a single
incident, because the merge compares the next `window_start` against
`cur_end + step` and `window_end` lies a full window length after
`window_start`. -/
theorem C1_counterexample :
    c1w2.window_start - c1w1.window_start = 120 ∧ (60 : ℤ) < 120 ∧
    c1w1.is_bad_window = true ∧ c1w2.is_bad_window = true ∧
    (merge_bad_windows 60 [c1w1, c1w2]).length = 1 ∧
    (merge_bad_windows 60 [c1w1, c1w2]).map Incident.num_windows = [2] := by
  refine ⟨rfl, by norm_num, rfl, rfl, ?_, ?_⟩ <;>
    norm_num [merge_bad_windows, c1w1, c1w2, List.insertionSort, List.orderedInsert,
      startLE, sevDurGE, mergeScan, initState, absorb, finalize, List.filter]

/-- C1 (amended): a subsequent bad window is merged into the open interval
iff its `window_start` is at most `cur_end + step` (so two sorted bad
windows end up in one incident iff `w2.window_start ≤ w1.window_end + step`;
a `window_start` gap exceeding the step does not force separation, only a
start beyond `window_end + step` does); the emitted `num_windows` values sum
to the number of bad windows, so each merged incident's window count equals
its number of member windows; and the final open interval is always
emitted — the incident list is empty iff there is no bad window at all. -/
theorem C1_merge_criterion (step : ℤ) (w : List CWRow) (w1 w2 : CWRow)
    (h1 : w1.is_bad_window = true) (h2 : w2.is_bad_window = true)
    (hle : w1.window_start ≤ w2.window_start) :
    ((merge_bad_windows step [w1, w2]).length
        = if w2.window_start ≤ w1.window_end + step then 1 else 2) ∧
    ((merge_bad_windows step w).map Incident.num_windows).sum
        = (w.filter (fun r => r.is_bad_window)).length ∧
    (merge_bad_windows step w = [] ↔ ∀ r ∈ w, r.is_bad_window = false) := by
  refine ⟨?_, ?_, ?_⟩
  · have hfilter : ([w1, w2].filter (fun r => r.is_bad_window)) = [w1, w2] := by
      simp [List.filter, h1, h2]
    have hsorted : List.Sorted startLE [w1, w2] := by
      simp [List.sorted_cons, startLE, hle]
    unfold merge_bad_windows
    rw [hfilter, hsorted.insertionSort_eq]
    simp only [mergeScan, initState, absorb]
    split_ifs with hc
    · simp [List.insertionSort, List.orderedInsert]
    · rw [(List.perm_insertionSort sevDurGE _).length_eq]
      simp
  · unfold merge_bad_windows
    split
    · next heq =>
        have : (w.filter (fun r => r.is_bad_window)) = [] :=
          List.Perm.eq_nil ((List.perm_insertionSort startLE _).symm.trans (heq ▸ List.Perm.refl _))
        simp [this]
    · next r rs heq =>
        have hlen : (w.filter (fun r => r.is_bad_window)).length = (r :: rs).length := by
          rw [← (List.perm_insertionSort startLE (w.filter (fun r => r.is_bad_window))).length_eq,
            heq]
        rw [((List.perm_insertionSort sevDurGE _).map Incident.num_windows).sum_eq,
          mergeScan_num_windows_sum, hlen]
        simp only [initState, List.length_cons]
        omega
  · unfold merge_bad_windows
    split
    · next heq =>
        have : (w.filter (fun r => r.is_bad_window)) = [] :=
          List.Perm.eq_nil ((List.perm_insertionSort startLE _).symm.trans (heq ▸ List.Perm.refl _))
        rw [List.filter_eq_nil_iff] at this
        constructor
        · intro _
          intro r hr
          simpa using this r hr
        · intro _; rfl
    · next r rs heq =>
        constructor
        · intro habs
          have hperm := List.perm_insertionSort sevDurGE (mergeScan step (initState r) rs)
          rw [habs] at hperm
          exact absurd (List.Perm.eq_nil hperm.symm) (mergeScan_ne_nil step (initState r) rs)
        · intro hall
          have : (w.filter (fun r => r.is_bad_window)) = [] := by
            rw [List.filter_eq_nil_iff]
            intro x hx
            simp [hall x hx]
          rw [this] at heq
          simp [List.insertionSort] at heq
  -- final branch closed above

/-- Witness for C1 at two adjacent bad windows. -/
theorem C1_merge_criterion_witness :
    c2w1.is_bad_window = true ∧ c2w2.is_bad_window = true ∧
    c2w1.window_start ≤ c2w2.window_start ∧
    (((merge_bad_windows 60 [c2w1, c2w2]).length
        = if c2w2.window_start ≤ c2w1.window_end + 60 then 1 else 2) ∧
    ((merge_bad_windows 60 [c1w1]).map Incident.num_windows).sum
        = ([c1w1].filter (fun r => r.is_bad_window)).length ∧
    (merge_bad_windows 60 [c1w1] = [] ↔ ∀ r ∈ [c1w1], r.is_bad_window = false)) :=
  ⟨rfl, rfl, by decide,
   C1_merge_criterion 60 [c1w1] c2w1 c2w2 rfl rfl (by decide)⟩

/-- C2 counterexample: merging the two adjacent bad windows `c2w1` (mean 10,
30 samples) and `c2w2` (mean 20, 60 samples) yields `mean_score = 16.67`,
the two-decimal rounding of the weighted mean `50/3`, which is not equal to
the weighted mean itself. -/
theorem C2_counterexample :
    (merge_bad_windows 60 [c2w1, c2w2]).map Incident.mean_score = [1667 / 100] ∧
    (c2w1.mean_score * (c2w1.n_samples : ℚ) + c2w2.mean_score * (c2w2.n_samples : ℚ))
        / ((c2w1.n_samples : ℚ) + (c2w2.n_samples : ℚ)) = 50 / 3 ∧
    (1667 / 100 : ℚ) ≠ 50 / 3 := by
  refine ⟨?_, by norm_num [c2w1, c2w2], by norm_num⟩
  norm_num [merge_bad_windows, c2w1, c2w2, List.insertionSort, List.orderedInsert,
    startLE, sevDurGE, mergeScan, initState, absorb, finalize, List.filter, round2, round_eq,
    qmean]

/-- C2 (amended): for every maximal contiguous run of bad windows (sorted by
`window_start`, every successive window within `cur_end + step`, positive
total sample count), the merger produces exactly one incident whose
`mean_score` is the two-decimal rounding of
`Σ (window mean_score × window sample_count) / Σ (window sample_count)` and
whose `bad_fraction` is the two-decimal rounding of the same sample-count
weighting of the window bad fractions — not a simple average of the member
values. -/
theorem C2_weighted_aggregation (step : ℤ) (r : CWRow) (rs : List CWRow)
    (hbad : ∀ x ∈ r :: rs, x.is_bad_window = true)
    (hsorted : List.Sorted startLE (r :: rs))
    (hcontig : contigAll step (initState r) rs = true)
    (hpos : 0 < ((r :: rs).map CWRow.n_samples).sum) :
    merge_bad_windows step (r :: rs) = [finalize (rs.foldl absorb (initState r))] ∧
    (finalize (rs.foldl absorb (initState r))).mean_score
      = round2 (((r :: rs).map (fun x => x.mean_score * (x.n_samples : ℚ))).sum
          / ((((r :: rs).map CWRow.n_samples).sum : ℕ) : ℚ)) ∧
    (finalize (rs.foldl absorb (initState r))).bad_pct
      = round2 (((r :: rs).map (fun x => x.bad_pct * (x.n_samples : ℚ))).sum
          / ((((r :: rs).map CWRow.n_samples).sum : ℕ) : ℚ)) := by
  obtain ⟨hsc, hbd, hn, -⟩ := foldl_absorb_fields rs (initState r)
  have hsum : (rs.foldl absorb (initState r)).w_sum_n = ((r :: rs).map CWRow.n_samples).sum := by
    rw [hn]; simp [initState]
  refine ⟨?_, ?_, ?_⟩
  · unfold merge_bad_windows
    rw [List.filter_eq_self.mpr hbad, hsorted.insertionSort_eq]
    show List.insertionSort sevDurGE (mergeScan step (initState r) rs) = _
    rw [mergeScan_contig step rs (initState r) hcontig]
    simp [List.insertionSort, List.orderedInsert]
  · unfold finalize
    simp only
    rw [hsum, if_pos hpos, hsc]
    simp [initState]
  · unfold finalize
    simp only
    rw [hsum, if_pos hpos, hbd]
    simp [initState]

/-- Witness for C2 at the two adjacent bad windows `c2w1`, `c2w2`. -/
theorem C2_weighted_aggregation_witness :
    (∀ x ∈ [c2w1, c2w2], x.is_bad_window = true) ∧
    List.Sorted startLE [c2w1, c2w2] ∧
    contigAll 60 (initState c2w1) [c2w2] = true ∧
    0 < (([c2w1, c2w2]).map CWRow.n_samples).sum ∧
    (merge_bad_windows 60 [c2w1, c2w2] = [finalize ([c2w2].foldl absorb (initState c2w1))] ∧
    (finalize ([c2w2].foldl absorb (initState c2w1))).mean_score
      = round2 ((([c2w1, c2w2]).map (fun x => x.mean_score * (x.n_samples : ℚ))).sum
          / (((([c2w1, c2w2]).map CWRow.n_samples).sum : ℕ) : ℚ)) ∧
    (finalize ([c2w2].foldl absorb (initState c2w1))).bad_pct
      = round2 ((([c2w1, c2w2]).map (fun x => x.bad_pct * (x.n_samples : ℚ))).sum
          / (((([c2w1, c2w2]).map CWRow.n_samples).sum : ℕ) : ℚ))) :=
  ⟨by decide, by decide, by decide, by decide,
   C2_weighted_aggregation 60 c2w1 [c2w2] (by decide) (by decide) (by decide) (by decide)⟩

/-- C10: the incident list returned by the merger is always ordered by
severity descending, ties broken by duration descending; and it is not in
chronological `start_time` order — at `c10rows`, whose later bad window has
the higher severity, the output start times are not non-decreasing. -/
theorem C10_incident_ordering :
    (∀ (step : ℤ) (w : List CWRow), List.Pairwise sevDurGE (merge_bad_windows step w)) ∧
    ¬ List.Chain' (fun a b : Incident => a.start_time ≤ b.start_time)
      (merge_bad_windows 60 c10rows) := by
  constructor
  · intro step w
    unfold merge_bad_windows
    split
    · exact List.Pairwise.nil
    · exact List.sorted_insertionSort sevDurGE _
  · have : (merge_bad_windows 60 c10rows).map Incident.start_time = [10000, 0] := by
      norm_num [merge_bad_windows, c10rows, List.insertionSort, List.orderedInsert,
        startLE, sevDurGE, mergeScan, initState, absorb, finalize, List.filter, round2, round_eq,
        qmean]
    intro hchain
    rcases hmb : merge_bad_windows 60 c10rows with - | ⟨a, tl⟩
    · rw [hmb] at this; simp at this
    · rcases tl with - | ⟨b, tl2⟩
      · rw [hmb] at this; simp at this
      · rcases tl2 with - | ⟨c, tl3⟩
        · rw [hmb] at this hchain
          simp [List.chain'_cons] at hchain this
          omega
        · rw [hmb] at this; simp at this

/-! ## Input validation (C9) -/

/-- C9 counterexample: a table with every required column but an
unparseable first-row timestamp does not fail — `main` coerces the value to
NaT, drops the row, and proceeds to build windows from the remaining
rows. -/
theorem C9_counterexample :
    (∃ r ∈ c9table.rows, r.timestamp = none) ∧
    main_prelude c9table = Except.ok [⟨10, 90, false⟩] := by
  constructor
  · exact ⟨⟨none, some 50, "bad"⟩, by simp [c9table], rfl⟩
  · rfl

/-- C9 (amended): the run fails iff a required column is missing, and the
error names exactly the missing required columns; with all required columns
present the run succeeds even when timestamps or scores are unparseable —
such rows are coerced and silently dropped and the remaining rows are
processed. -/
theorem C9_validation (t : RawTable) :
    ((∃ v, main_prelude t = Except.ok v) ↔ ∀ c ∈ requiredCols, c ∈ t.cols) ∧
    ((∀ c ∈ requiredCols, c ∈ t.cols) →
      main_prelude t = Except.ok (t.rows.filterMap cleanRow)) ∧
    (¬ (∀ c ∈ requiredCols, c ∈ t.cols) →
      ∃ m, main_prelude t = Except.error m ∧ m ≠ [] ∧
        ∀ c ∈ m, c ∈ requiredCols ∧ c ∉ t.cols) := by
  have key : (requiredCols.filter (fun c => !(t.cols.contains c))).isEmpty = true
      ↔ ∀ c ∈ requiredCols, c ∈ t.cols := by
    simp [List.isEmpty_iff, List.filter_eq_nil_iff]
  refine ⟨?_, ?_, ?_⟩
  · unfold main_prelude
    split_ifs with h
    · simpa using key.mp h
    · exact iff_of_false (by rintro ⟨v, hv⟩; simp at hv) (fun hp => h (key.mpr hp))
  · intro hp
    unfold main_prelude
    rw [if_pos (key.mpr hp)]
  · intro hnp
    unfold main_prelude
    rw [if_neg (fun h => hnp (key.mp h))]
    refine ⟨_, rfl, ?_, ?_⟩
    · intro hnil
      exact hnp (key.mp (by rw [hnil]; rfl))
    · intro c hc
      rw [List.mem_filter] at hc
      refine ⟨hc.1, ?_⟩
      have := hc.2
      simp at this
      exact this

/-- Witness for C9 applying the validation theorem at the concrete
counterexample table. -/
theorem C9_validation_witness :
    ((∃ v, main_prelude c9table = Except.ok v) ↔ ∀ c ∈ requiredCols, c ∈ c9table.cols) ∧
    ((∀ c ∈ requiredCols, c ∈ c9table.cols) →
      main_prelude c9table = Except.ok (c9table.rows.filterMap cleanRow)) ∧
    (¬ (∀ c ∈ requiredCols, c ∈ c9table.cols) →
      ∃ m, main_prelude c9table = Except.error m ∧ m ≠ [] ∧
        ∀ c ∈ m, c ∈ requiredCols ∧ c ∉ c9table.cols) :=
  C9_validation c9table

/-- Witness for C10 applying the ordering theorem at the concrete two-bad
window input. -/
theorem C10_incident_ordering_witness :
    List.Pairwise sevDurGE (merge_bad_windows 60 c10rows) :=
  C10_incident_ordering.1 60 c10rows

/-! ## Window monotonicity (C4) -/

/-- Transport of pairwise relations along `filterMap`. -/
theorem pairwise_filterMap_of_pairwise {α β : Type} (f : α → Option β)
    {R : α → α → Prop} {S : β → β → Prop}
    (hf : ∀ a b, R a b → ∀ x, f a = some x → ∀ y, f b = some y → S x y) :
    ∀ {l : List α}, List.Pairwise R l → List.Pairwise S (List.filterMap f l) := by
  intro l hl
  induction hl with
  | nil => simp
  | @cons a l' hr _ ih =>
    rw [List.filterMap_cons]
    cases hfa : f a with
    | none => exact ih
    | some x =>
      refine List.Pairwise.cons ?_ ih
      intro y hy
      obtain ⟨b, hb, hfb⟩ := List.mem_filterMap.mp hy
      exact hf a b (hr b hb) x hfa y hfb

/-- The bin label is monotone in the timestamp (for a positive step). -/
theorem binOf_mono (step : ℤ) (hstep : 0 < step) {t u : ℤ} (h : t ≤ u) :
    binOf step t ≤ binOf step u := by
  unfold binOf
  have hc : (0 : ℚ) < (step : ℚ) := by exact_mod_cast hstep
  have hq : ((t : ℚ)) / (step : ℚ) ≤ ((u : ℚ)) / (step : ℚ) :=
    (div_le_div_right hc).mpr (by exact_mod_cast h)
  exact mul_le_mul_of_nonneg_left (Int.floor_le_floor hq) hstep.le

/-- Every bin label is a multiple of the step. -/
theorem step_dvd_binOf (step t : ℤ) : step ∣ binOf step t := ⟨⌊(t : ℚ) / (step : ℚ)⌋, rfl⟩

/-- An emitted window of bin `b` has `window_start = b - W`. -/
theorem emitBin_window_start {W step : ℤ} {m : ℕ} {s : List SRow} {b : ℤ} {e : WindowRow}
    (h : emitBin W step m s b = some e) : e.window_start = b - W := by
  unfold emitBin at h
  rw [Option.map_eq_some'] at h
  obtain ⟨i, -, he⟩ := h
  rw [← he]

/-- Strengthening a strictly increasing list of multiples of `step` into a
pairwise relation that also carries divisibility of the differences. -/
theorem pairwise_lt_and_dvd {l : List ℤ} (step : ℤ)
    (hdvd : ∀ x ∈ l, step ∣ x) (hlt : List.Pairwise (· < ·) l) :
    List.Pairwise (fun a b => a < b ∧ step ∣ (b - a)) l := by
  induction l with
  | nil => simp
  | cons a l ih =>
    rw [List.pairwise_cons] at hlt ⊢
    obtain ⟨h1, h2⟩ := hlt
    refine ⟨fun b hb => ⟨h1 b hb, ?_⟩, ih (fun x hx => hdvd x (List.mem_cons_of_mem a hx)) h2⟩
    exact (hdvd b (List.mem_cons_of_mem a hb)).sub (hdvd a (List.mem_cons_self a l))

/-- The bins of the sorted sample list are strictly increasing multiples of
the step. -/
theorem binsOf_pairwise (step : ℤ) (hstep : 0 < step) (rows : List SRow) :
    List.Pairwise (fun a b => a < b ∧ step ∣ (b - a)) (binsOf step (sortByTime rows)) := by
  have hsorted : List.Sorted timeLE (sortByTime rows) :=
    List.sorted_insertionSort timeLE rows
  have hmapLE : List.Pairwise (· ≤ ·)
      ((sortByTime rows).map (fun r => binOf step r.timestamp)) := by
    rw [List.pairwise_map]
    exact hsorted.imp (fun h => binOf_mono step hstep h)
  have hLE : List.Pairwise (· ≤ ·) (binsOf step (sortByTime rows)) :=
    List.Pairwise.sublist (List.dedup_sublist _) hmapLE
  have hNE : List.Pairwise (· ≠ ·) (binsOf step (sortByTime rows)) :=
    List.nodup_dedup _
  have hLT : List.Pairwise (· < ·) (binsOf step (sortByTime rows)) :=
    (hLE.and hNE).imp (fun h => lt_of_le_of_ne h.1 h.2)
  refine pairwise_lt_and_dvd step ?_ hLT
  intro x hx
  obtain ⟨r, -, hr⟩ := List.mem_map.mp (List.mem_dedup.mp hx)
  exact hr ▸ step_dvd_binOf step r.timestamp

/-- C4 counterexample: with the script constants `W = 300`, `step = 60` and
`minSamples` lowered to 3 (the windower's contract is parameterized), two
sample bursts 600 seconds apart produce consecutive windows whose
`window_start` spacing is 600 seconds, not the 60-second step — sparse bins
are skipped, so the spacing is not constantly equal to the step. -/
theorem C4_counterexample :
    (build_window_table 300 60 3 c4rows).map WindowRow.window_start = [-300, 300] ∧
    ¬ List.Chain' (fun a b : WindowRow => b.window_start - a.window_start = 60)
      (build_window_table 300 60 3 c4rows) := by
  have heval : (build_window_table 300 60 3 c4rows).map WindowRow.window_start = [-300, 300] := by
    norm_num [build_window_table, c4rows, sortByTime, binsOf, emitBin, lastValidIdx, validAt,
      rollWin, binOf, qmean, round2, badVal, timeLE, List.insertionSort, List.orderedInsert,
      List.range_succ, round_eq, List.filter, List.dedup, List.filterMap]
  refine ⟨heval, ?_⟩
  intro hchain
  rcases hmb : build_window_table 300 60 3 c4rows with - | ⟨a, tl⟩
  · rw [hmb] at heval; simp at heval
  · rcases tl with - | ⟨b, tl2⟩
    · rw [hmb] at heval; simp at heval
    · rcases tl2 with - | ⟨c, tl3⟩
      · rw [hmb] at heval hchain
        simp [List.chain'_cons] at hchain heval
        omega
      · rw [hmb] at heval; simp at heval

/-- C4 (amended): for every input and every positive step, the window table
lists windows in strictly increasing `window_start` order, and the spacing
between consecutive windows is always a (positive) multiple of the step —
it equals the step exactly when no intermediate bin was skipped, but bins
without qualifying samples are skipped, not zero-filled. -/
theorem C4_window_monotonicity (W step : ℤ) (m : ℕ) (rows : List SRow) (hstep : 0 < step) :
    List.Pairwise (fun a b : WindowRow =>
      a.window_start < b.window_start ∧ step ∣ (b.window_start - a.window_start))
      (build_window_table W step m rows) := by
  unfold build_window_table
  refine pairwise_filterMap_of_pairwise _ ?_ (binsOf_pairwise step hstep rows)
  intro b1 b2 hb e1 he1 e2 he2
  rw [emitBin_window_start he1, emitBin_window_start he2]
  constructor
  · omega
  · have : b2 - W - (b1 - W) = b2 - b1 := by ring
    rw [this]
    exact hb.2

/-- Witness for C4 applying the monotonicity theorem at the counterexample
input. -/
theorem C4_window_monotonicity_witness :
    (0 : ℤ) < 60 ∧
    List.Pairwise (fun a b : WindowRow =>
      a.window_start < b.window_start ∧ (60 : ℤ) ∣ (b.window_start - a.window_start))
      (build_window_table 300 60 3 c4rows) :=
  ⟨by norm_num, C4_window_monotonicity 300 60 3 c4rows (by norm_num)⟩

/-! ## Window aggregation (C3) -/

/-- The last element reported by `getLast?` is a member of the list. -/
theorem mem_of_getLast_eq {α : Type} {l : List α} {a : α} (h : l.getLast? = some a) : a ∈ l := by
  obtain ⟨ys, rfl⟩ := List.getLast?_eq_some_iff.mp h
  simp

/-- `qmean` is invariant under permutation. -/
theorem qmean_perm {l₁ l₂ : List ℚ} (h : l₁.Perm l₂) : qmean l₁ = qmean l₂ := by
  unfold qmean
  rw [h.sum_eq, h.length_eq]

/-- What a successful `lastValidIdx` lookup guarantees: a position inside
the list whose bin is `b` and whose rolling window is large enough. -/
theorem lastValidIdx_spec {W step : ℤ} {m : ℕ} {s : List SRow} {b : ℤ} {i : ℕ}
    (h : lastValidIdx W step m s b = some i) :
    ∃ hi : i < s.length, binOf step (s[i].timestamp) = b ∧ m ≤ (rollWin W s i).length := by
  unfold lastValidIdx at h
  have hmem := mem_of_getLast_eq h
  rw [List.mem_filter, List.mem_range] at hmem
  obtain ⟨hi, hpred⟩ := hmem
  rw [Bool.and_eq_true, decide_eq_true_eq] at hpred
  obtain ⟨hbin, hvalid⟩ := hpred
  unfold validAt at hvalid
  rw [decide_eq_true_eq] at hvalid
  refine ⟨hi, ?_, hvalid⟩
  rw [List.getElem?_eq_getElem hi] at hbin
  simpa using hbin

/-- On a strictly time-sorted list, the positional rolling window at `i`
is exactly the time filter `(tᵢ - W, tᵢ]` over the whole list. -/
theorem rollWin_eq_filter (W : ℤ) {s : List SRow} {i : ℕ} (hi : i < s.length)
    (hs : List.Pairwise (fun a b : SRow => a.timestamp < b.timestamp) s) :
    rollWin W s i = s.filter (fun x =>
      decide (s[i].timestamp - W < x.timestamp) && decide (x.timestamp ≤ s[i].timestamp)) := by
  have hmem_take : s[i] ∈ s.take (i + 1) := by
    have hlen : i < (s.take (i + 1)).length := by
      rw [List.length_take]
      omega
    have hget : (s.take (i + 1))[i] = s[i] := List.getElem_take s
    exact hget ▸ List.getElem_mem hlen
  have htake : ∀ x ∈ s.take (i + 1), x.timestamp ≤ s[i].timestamp := by
    intro x hx
    rw [List.take_succ, List.getElem?_eq_getElem hi] at hx
    rcases List.mem_append.mp hx with hx | hx
    · have hsplit := hs
      rw [← List.take_append_drop i s, List.pairwise_append] at hsplit
      refine (hsplit.2.2 x hx s[i] ?_).le
      rw [List.drop_eq_getElem_cons hi]
      exact List.mem_cons_self _ _
    · simp at hx
      rw [hx]
  have hdrop2 : ∀ x ∈ s.drop (i + 1), s[i].timestamp < x.timestamp := by
    intro x hx
    have hsplit := hs
    rw [← List.take_append_drop (i + 1) s, List.pairwise_append] at hsplit
    exact hsplit.2.2 s[i] hmem_take x hx
  unfold rollWin
  rw [List.getElem?_eq_getElem hi]
  show (s.take (i + 1)).filter (fun x => decide (s[i].timestamp - W < x.timestamp)) = _
  set t := s[i].timestamp with ht
  have h2 : (s.drop (i + 1)).filter (fun x =>
      decide (t - W < x.timestamp) && decide (x.timestamp ≤ t)) = [] := by
    rw [List.filter_eq_nil_iff]
    intro x hx
    rw [Bool.and_eq_true, decide_eq_true_eq, decide_eq_true_eq]
    rintro ⟨-, hle⟩
    exact absurd hle (not_le.mpr (hdrop2 x hx))
  have h1 : (s.take (i + 1)).filter (fun x =>
        decide (t - W < x.timestamp) && decide (x.timestamp ≤ t))
      = (s.take (i + 1)).filter (fun x => decide (t - W < x.timestamp)) := by
    apply List.filter_congr
    intro x hx
    have hx2 : decide (x.timestamp ≤ t) = true := decide_eq_true (htake x hx)
    rw [hx2, Bool.and_true]
  conv_rhs => rw [← List.take_append_drop (i + 1) s, List.filter_append, h1, h2]
  rw [List.append_nil]

/-- C3 counterexample: with `W = 300`, `step = 60`, `minSamples = 3`, the
window emitted for the boundary 300 aggregates 3 samples, while the closed
interval `[0, 300]` of the specification holds 4 samples — the sample
sitting exactly at `boundary - W` is excluded by the left-open pandas
window. -/
theorem C3_counterexample :
    (build_window_table 300 60 3 c3rows).map (fun e => (e.window_end, e.n_samples))
      = [(180, 3), (300, 3)] ∧
    (closedWindow 300 c3rows 300).length = 4 ∧ (3 : ℕ) ≠ 4 := by
  refine ⟨?_, by decide, by decide⟩
  norm_num [build_window_table, c3rows, sortByTime, binsOf, emitBin, lastValidIdx, validAt,
    rollWin, binOf, qmean, round2, badVal, timeLE, List.insertionSort, List.orderedInsert,
    List.range_succ, round_eq, List.filter, List.dedup, List.filterMap]

/-- C3 (amended): every emitted window has at least `minSamples` samples,
and (for inputs with pairwise-distinct timestamps) aggregates exactly the
samples of the half-open interval `(t - W, t]` for some sample timestamp
`t` lying in the window's step bin (`binOf step t = window_end`) — the last
in-bin sample with a full rolling window — rather than the closed interval
`[window_end - W, window_end]` of the boundary itself. -/
theorem C3_window_aggregation (W step : ℤ) (m : ℕ) (rows : List SRow) (e : WindowRow)
    (hnodup : (rows.map SRow.timestamp).Nodup)
    (he : e ∈ build_window_table W step m rows) :
    m ≤ e.n_samples ∧
    ∃ t ∈ rows.map SRow.timestamp,
      binOf step t = e.window_end ∧
      e.n_samples = (rows.filter (fun x =>
        decide (t - W < x.timestamp) && decide (x.timestamp ≤ t))).length ∧
      e.mean_score = round2 (qmean ((rows.filter (fun x =>
        decide (t - W < x.timestamp) && decide (x.timestamp ≤ t))).map SRow.score)) ∧
      e.bad_pct = round2 (100 * qmean ((rows.filter (fun x =>
        decide (t - W < x.timestamp) && decide (x.timestamp ≤ t))).map badVal)) := by
  unfold build_window_table at he
  obtain ⟨b, hbmem, hemit⟩ := List.mem_filterMap.mp he
  unfold emitBin at hemit
  rw [Option.map_eq_some'] at hemit
  obtain ⟨i, hlast, herec⟩ := hemit
  obtain ⟨hi, hbin, hvalid⟩ := lastValidIdx_spec hlast
  have hperm : (sortByTime rows).Perm rows := List.perm_insertionSort timeLE rows
  have hsorted : List.Sorted timeLE (sortByTime rows) := List.sorted_insertionSort timeLE rows
  have hnodup2 : ((sortByTime rows).map SRow.timestamp).Nodup :=
    (hperm.map SRow.timestamp).nodup_iff.mpr hnodup
  have hne : List.Pairwise (fun a b : SRow => a.timestamp ≠ b.timestamp) (sortByTime rows) :=
    List.pairwise_map.mp hnodup2
  have hlt : List.Pairwise (fun a b : SRow => a.timestamp < b.timestamp) (sortByTime rows) :=
    (hsorted.and hne).imp (fun h => lt_of_le_of_ne h.1 h.2)
  have hroll := rollWin_eq_filter W hi hlt
  have hfperm := hperm.filter (fun x =>
    decide ((sortByTime rows)[i].timestamp - W < x.timestamp)
      && decide (x.timestamp ≤ (sortByTime rows)[i].timestamp))
  subst herec
  refine ⟨hvalid, (sortByTime rows)[i].timestamp, ?_, ?_, ?_, ?_, ?_⟩
  · exact List.mem_map_of_mem SRow.timestamp (hperm.subset (List.getElem_mem hi))
  · exact hbin
  · show (rollWin W (sortByTime rows) i).length = _
    rw [hroll, hfperm.length_eq]
  · show round2 (qmean ((rollWin W (sortByTime rows) i).map SRow.score)) = _
    rw [hroll, qmean_perm (hfperm.map SRow.score)]
  · show round2 (100 * qmean ((rollWin W (sortByTime rows) i).map badVal)) = _
    rw [hroll, qmean_perm (hfperm.map badVal)]

/-- Witness for C3 at a one-sample table (`minSamples = 1`). -/
theorem C3_window_aggregation_witness :
    (([⟨0, 50, true⟩] : List SRow).map SRow.timestamp).Nodup ∧
    (⟨0, -300, 50, 100, 1⟩ : WindowRow) ∈ build_window_table 300 60 1 [⟨0, 50, true⟩] ∧
    (1 ≤ (⟨0, -300, 50, 100, 1⟩ : WindowRow).n_samples ∧
    ∃ t ∈ ([⟨0, 50, true⟩] : List SRow).map SRow.timestamp,
      binOf 60 t = (⟨0, -300, 50, 100, 1⟩ : WindowRow).window_end ∧
      (⟨0, -300, 50, 100, 1⟩ : WindowRow).n_samples
        = (([⟨0, 50, true⟩] : List SRow).filter (fun x =>
          decide (t - 300 < x.timestamp) && decide (x.timestamp ≤ t))).length ∧
      (⟨0, -300, 50, 100, 1⟩ : WindowRow).mean_score
        = round2 (qmean ((([⟨0, 50, true⟩] : List SRow).filter (fun x =>
          decide (t - 300 < x.timestamp) && decide (x.timestamp ≤ t))).map SRow.score)) ∧
      (⟨0, -300, 50, 100, 1⟩ : WindowRow).bad_pct
        = round2 (100 * qmean ((([⟨0, 50, true⟩] : List SRow).filter (fun x =>
          decide (t - 300 < x.timestamp) && decide (x.timestamp ≤ t))).map badVal))) := by
  have hmem : (⟨0, -300, 50, 100, 1⟩ : WindowRow) ∈ build_window_table 300 60 1 [⟨0, 50, true⟩] := by
    have : build_window_table 300 60 1 [⟨0, 50, true⟩] = [⟨0, -300, 50, 100, 1⟩] := by
      norm_num [build_window_table, sortByTime, binsOf, emitBin, lastValidIdx, validAt,
        rollWin, binOf, qmean, round2, badVal, timeLE, List.insertionSort, List.orderedInsert,
        List.range_succ, round_eq, List.filter, List.dedup, List.filterMap]
    rw [this]
    exact List.mem_singleton.mpr rfl
  exact ⟨by decide, hmem, C3_window_aggregation 300 60 1 [⟨0, 50, true⟩] ⟨0, -300, 50, 100, 1⟩
    (by decide) hmem⟩

/-! ## Gateway involvement (C8) -/

/-- A prefix occurrence is an occurrence. -/
theorem subOcc_of_isPrefixOf {needle l : List Char} (h : needle.isPrefixOf l = true) :
    subOcc needle l = true := by
  cases l with
  | nil =>
    rw [List.isPrefixOf_iff_prefix, List.prefix_nil] at h
    simp [subOcc, h]
  | cons c cs =>
    unfold subOcc
    rw [h, Bool.true_or]

/-- An occurrence survives prepending. -/
theorem subOcc_append_left (needle pre l : List Char) (h : subOcc needle l = true) :
    subOcc needle (pre ++ l) = true := by
  induction pre with
  | nil => simpa using h
  | cons c cs ih =>
    show subOcc needle (c :: (cs ++ l)) = true
    unfold subOcc
    rw [ih, Bool.or_true]

/-- If some entry of a comma-join starts with the needle (whatever follows
it), the needle occurs in the join. -/
theorem subOcc_joinComma {needle : List Char} (es : List (List Char)) (e : List Char)
    (he : e ∈ es) (hpre : ∀ rest : List Char, needle.isPrefixOf (e ++ rest) = true) :
    subOcc needle (joinComma es) = true := by
  induction es with
  | nil => cases he
  | cons x xs ih =>
    rcases List.mem_cons.mp he with rfl | hmem
    · cases xs with
      | nil =>
        have h0 := hpre []
        rw [List.append_nil] at h0
        exact subOcc_of_isPrefixOf (l := joinComma [e]) (by simpa [joinComma] using h0)
      | cons y ys =>
        have h0 := hpre (',' :: joinComma (y :: ys))
        rw [show joinComma (e :: y :: ys) = e ++ ',' :: joinComma (y :: ys) from rfl]
        exact subOcc_of_isPrefixOf h0
    · cases xs with
      | nil => cases hmem
      | cons y ys =>
        rw [show joinComma (x :: y :: ys) = (x ++ [',']) ++ joinComma (y :: ys) by
          simp [joinComma]]
        exact subOcc_append_left _ _ _ (ih hmem)

/-- The formatted entry of a service literally named `gateway` starts with
the text `gateway(`. -/
theorem gateway_isPrefixOf_entry (a : SvcAgg) (h : a.service_name = "gateway")
    (rest : List Char) :
    (("gateway(").toList).isPrefixOf (svcEntry a ++ rest) = true := by
  rw [List.isPrefixOf_iff_prefix]
  refine ⟨pctDigits a.bad_pct ++ ['%', ')'] ++ rest, ?_⟩
  have hgw : ("gateway(").toList = ("gateway").toList ++ ['('] := by decide
  simp [svcEntry, h, hgw]

/-- C8 counterexample: a single incident whose only in-range samples come
from a service named `mygateway` — no destination literally named
`gateway` is in the top list — still gets `gateway_involved = true`,
because the flag is the substring test `"gateway(" in top_string` and
`mygateway(100%)` contains `gateway(`. -/
theorem C8_counterexample :
    (add_diagnosis (attribute_services true c8rows [c8itv] 3)).map DiagIncident.gateway_involved
      = [true] ∧
    "gateway" ∉ topBadNames c8rows c8itv 3 ∧
    topBadNames c8rows c8itv 3 = ["mygateway"] := by
  have hper : topBadNames c8rows c8itv 3 = ["mygateway"] := by
    norm_num [topBadNames, topBadList, perService, svcAgg, qmean, c8rows, c8itv,
      List.insertionSort, List.orderedInsert, List.filter, List.dedup, badDescGE]
  refine ⟨?_, by rw [hper]; decide, hper⟩
  have harg : (100 : ℚ) * qmean [1] = 100 := by norm_num [qmean]
  norm_num [add_diagnosis, attribute_services, attribute_one, perService, svcAgg, topBadList,
    qmean, badDescGE, countDescGE, List.insertionSort, List.orderedInsert, c8rows, c8itv,
    svcEntry, countEntry, pctDigits, joinComma, round2, round_eq, List.filter, List.dedup]
  decide

/-- C8 (amended): `gateway_involved` equals the substring test for
`gateway(` on the formatted top-by-bad-fraction string; a destination
literally named `gateway` in the top list therefore sets the flag, but so
does any destination whose formatted entry begins with `gateway(` (for
example a name ending in `gateway`), so the flag is not equivalent to the
literal name appearing. -/
theorem C8_gateway_flag (itvs : List AttrIncident) (d : DiagIncident) (l : List SvcAgg)
    (hd : d ∈ add_diagnosis itvs) (hgw : "gateway" ∈ l.map SvcAgg.service_name) :
    d.gateway_involved = subOcc (("gateway(").toList) d.attr.top_services_by_bad_pct ∧
    subOcc (("gateway(").toList) (joinComma (l.map svcEntry)) = true := by
  constructor
  · obtain ⟨itv, -, h⟩ := List.mem_map.mp hd
    rw [← h]
  · obtain ⟨a, ha, hname⟩ := List.mem_map.mp hgw
    exact subOcc_joinComma _ (svcEntry a) (List.mem_map_of_mem svcEntry ha)
      (gateway_isPrefixOf_entry a hname)

/-- Witness for C8: the flag of the `mygateway` incident equals the
substring test, and a top list holding a service literally named `gateway`
makes the substring test positive. -/
theorem C8_gateway_flag_witness :
    c8diag ∈ add_diagnosis [c8attr] ∧
    "gateway" ∈ ([c8svc] : List SvcAgg).map SvcAgg.service_name ∧
    (c8diag.gateway_involved
        = subOcc (("gateway(").toList) c8diag.attr.top_services_by_bad_pct ∧
      subOcc (("gateway(").toList) (joinComma (([c8svc] : List SvcAgg).map svcEntry)) = true) := by
  have hd : c8diag ∈ add_diagnosis [c8attr] := List.mem_singleton.mpr rfl
  exact ⟨hd, by decide, C8_gateway_flag [c8attr] c8diag [c8svc] hd (by decide)⟩

end NetInsight
